import Mathlib

/-!
Verification development for the expense-tracker backend.

The embedding models the transactions module (`TransactionsService`:
`findAll`, `findOne`, `update`, `remove`, `exportToCsv`) and the dashboard
module (`DashboardService`: `getSummary`, `getTrends`,
`getCategoryBreakdown`) as pure functions over an explicit store of
transactions (a `List Transaction` standing for the `transactions` table in
insertion order).

Modelling conventions:
- calendar dates are `Nat` (any order-isomorphic encoding of dates works;
  `date BETWEEN a AND b` is the inclusive `a ≤ date ∧ date ≤ b`);
- monetary amounts are `Int` (the service converts the decimal column with
  `Number(...)` and only adds/subtracts, so an embedding into integers of
  the smallest currency unit is faithful);
- the `page`/`limit` query strings, which the service runs through
  `parseInt(..., 10)` with defaults `'1'`/`'20'`, are modelled as the parsed
  `Option Nat` values;
- a SQL `ORDER BY` clause only constrains the result up to permutations
  that respect the sort key (`isDateDescOrdering` states that contract for
  the listing); for an executable model a concrete representative must be
  picked, and `sortByDateDesc` picks the stable sort of the
  insertion-ordered store — theorems about the relative order of rows with
  equal keys must therefore be stated against `isDateDescOrdering`, not
  against the representative, since the query has no secondary sort key;
- thrown `NotFoundException`s become `Except.error`; mutating operations
  return the resulting store explicitly;
- `TO_CHAR(date, fmt)` is a database built-in, so `getTrends` takes the
  formatter as an explicit function argument `toChar : String → Nat → String`.
-/

namespace Expense

/-- The `'income' | 'expense'` union type of the `type` column. -/
inductive TxType where
  | income
  | expense
deriving DecidableEq

/-- `Category` entity fields used by the transactions/dashboard modules. -/
structure Category where
  id : Nat
  userId : String
  name : String
  color : String
  icon : String
deriving DecidableEq

/-- The `Transaction` entity.  The eager `category` relation is stored on
the row, as TypeORM materialises it on load. -/
structure Transaction where
  id : Nat
  userId : String
  categoryId : Nat
  category : Category
  amount : Int
  type : TxType
  description : Option String
  date : Nat
  createdAt : Nat
  updatedAt : Nat
deriving DecidableEq

/-- `FilterTransactionDto`: all fields optional; `page` and `limit` are
modelled as their parsed numeric values. -/
structure FilterTransactionDto where
  type : Option TxType
  categoryId : Option Nat
  startDate : Option Nat
  endDate : Option Nat
  search : Option String
  page : Option Nat
  limit : Option Nat
deriving DecidableEq

/-- `UpdateTransactionDto`.  Modelled from the spec: the DTO file is not in
the sources; per the spec an update takes "any subset of the create fields"
(`type`, `amount`, `date`, `categoryId`, `description`). -/
structure UpdateTransactionDto where
  type : Option TxType
  amount : Option Int
  date : Option Nat
  categoryId : Option Nat
  description : Option String
deriving DecidableEq

/-! ### Stable insertion sort (model of SQL `ORDER BY`)

`stableInsert keep a l` walks past every `b` with `keep a b = true`
(elements that must stay before the inserted `a`) and places `a` at the
first position where `keep a b` fails; applied over the insertion-ordered
store this is a stable sort. -/

def stableInsert (keep : α → α → Bool) (a : α) : List α → List α
  | [] => [a]
  | b :: l => if keep a b then b :: stableInsert keep a l else a :: b :: l

def stableSort (keep : α → α → Bool) : List α → List α
  | [] => []
  | a :: l => stableInsert keep a (stableSort keep l)

/-- The model's executable representative of
`ORDER BY transaction.date DESC`: a stable sort.  The query itself does
not determine the relative order of equal-date rows (no secondary sort
key); `isDateDescOrdering` below captures exactly what it does
guarantee. -/
def sortByDateDesc (l : List Transaction) : List Transaction :=
  stableSort (fun a b => decide (a.date < b.date)) l

/-- What `ORDER BY transaction.date DESC` actually constrains the result
to be: some permutation of the matched rows whose dates are
non-increasing.  Every such permutation is a possible engine result; with
equal-date rows there is more than one. -/
def isDateDescOrdering (matching result : List Transaction) : Prop :=
  List.Perm result matching
  ∧ result.Pairwise (fun a b => b.date ≤ a.date)

/-! ### TransactionsService -/

/-- The optional date-range predicate built by `findAll`:
`BETWEEN` when both bounds are present, `>=` / `<=` when one is. -/
def listDateOk (startDate endDate : Option Nat) (t : Transaction) : Bool :=
  match startDate, endDate with
  | some s, some e => decide (s ≤ t.date) && decide (t.date ≤ e)
  | some s, none => decide (s ≤ t.date)
  | none, some e => decide (t.date ≤ e)
  | none, none => true

/-- `p` matches at the head of `l`. -/
def chStarts : List Char → List Char → Bool
  | [], _ => true
  | _ :: _, [] => false
  | a :: p, b :: l => a == b && chStarts p l

/-- `p` occurs contiguously somewhere in `l`. -/
def chContains (p : List Char) : List Char → Bool
  | [] => p.isEmpty
  | b :: l => chStarts p (b :: l) || chContains p l

/-- Case-insensitive substring test modelling `ILIKE '%search%'`
(`NULL` descriptions never match, as in SQL). -/
def searchOk (search : Option String) (t : Transaction) : Bool :=
  match search with
  | none => true
  | some s =>
    match t.description with
    | none => false
    | some d => chContains s.toLower.toList d.toLower.toList

/-- The conjunction of WHERE clauses built by `findAll`. -/
def matchesFilter (f : FilterTransactionDto) (userId : String) (t : Transaction) : Bool :=
  t.userId == userId
  && (match f.type with | none => true | some ty => t.type == ty)
  && (match f.categoryId with | none => true | some c => t.categoryId == c)
  && listDateOk f.startDate f.endDate t
  && searchOk f.search t

/-- The fully ordered listing (the sequence the pagination window is cut
from): matching rows sorted by date descending, stably. -/
def listingOrder (store : List Transaction) (userId : String)
    (f : FilterTransactionDto) : List Transaction :=
  sortByDateDesc (store.filter (matchesFilter f userId))

/-- The `{data, total, page, limit, totalPages}` return shape of `findAll`. -/
structure PaginatedResult where
  data : List Transaction
  total : Nat
  page : Nat
  limit : Nat
  totalPages : Nat
deriving DecidableEq

/-- `TransactionsService.findAll`: defaults `page=1`, `limit=20`,
`skip=(page-1)*limit`, `getManyAndCount` (the count ignores skip/take),
`totalPages = Math.ceil(total / limit)` (for `limit ≥ 1` the ceiling is
`(total + limit - 1) / limit`). -/
def findAll (store : List Transaction) (userId : String)
    (f : FilterTransactionDto) : PaginatedResult :=
  let pageNum := f.page.getD 1
  let limitNum := f.limit.getD 20
  let skip := (pageNum - 1) * limitNum
  let total := (store.filter (matchesFilter f userId)).length
  { data := ((listingOrder store userId f).drop skip).take limitNum
    total := total
    page := pageNum
    limit := limitNum
    totalPages := (total + limitNum - 1) / limitNum }

/-- The repository lookup `findOne({ where: { id, userId } })`. -/
def findOneTx (store : List Transaction) (id : Nat) (userId : String) :
    Option Transaction :=
  store.find? (fun t => t.id == id && t.userId == userId)

/-- `TransactionsService.findOne`: throws `NotFoundException` when the
combined id+owner lookup misses. -/
def findOne (store : List Transaction) (id : Nat) (userId : String) :
    Except String Transaction :=
  match findOneTx store id userId with
  | none => .error "Transaction not found"
  | some t => .ok t

/-- `Object.assign(transaction, updateTransactionDto)`: fields present in
the DTO overwrite, absent fields are untouched. -/
def applyUpdate (t : Transaction) (dto : UpdateTransactionDto) : Transaction :=
  { t with
    type := dto.type.getD t.type
    amount := dto.amount.getD t.amount
    date := dto.date.getD t.date
    categoryId := dto.categoryId.getD t.categoryId
    description := match dto.description with
      | none => t.description
      | some d => some d }

/-- `TransactionsService.update`: `findOne`, `Object.assign`, then `save`
(which persists by primary key and refreshes the `@UpdateDateColumn`
`updatedAt`; `now` is the save-time clock value).  Returns the saved row
and the resulting store. -/
def update (store : List Transaction) (id : Nat) (userId : String)
    (dto : UpdateTransactionDto) (now : Nat) :
    Except String (Transaction × List Transaction) :=
  match findOneTx store id userId with
  | none => .error "Transaction not found"
  | some t =>
    let t' := { applyUpdate t dto with updatedAt := now }
    .ok (t', store.map (fun x => if x.id == t.id then t' else x))

/-- The store left behind by `update` (unchanged when it throws). -/
def storeAfterUpdate (store : List Transaction) (id : Nat) (userId : String)
    (dto : UpdateTransactionDto) (now : Nat) : List Transaction :=
  match update store id userId dto now with
  | .error _ => store
  | .ok (_, s) => s

/-- `TransactionsService.remove`: `findOne` then `repository.remove`
(deletion by primary key). -/
def remove (store : List Transaction) (id : Nat) (userId : String) :
    Except String (List Transaction) :=
  match findOneTx store id userId with
  | none => .error "Transaction not found"
  | some t => .ok (store.filter (fun x => !(x.id == t.id)))

/-- The store left behind by `remove` (unchanged when it throws). -/
def storeAfterRemove (store : List Transaction) (id : Nat) (userId : String) :
    List Transaction :=
  match remove store id userId with
  | .error _ => store
  | .ok s => s

/-! ### CSV export -/

def TxType.str : TxType → String
  | .income => "income"
  | .expense => "expense"

/-- One CSV data row:
`[date, type, category.name, amount, "description"].join(',')`. -/
def csvRow (t : Transaction) : String :=
  String.intercalate ","
    [toString t.date, t.type.str, t.category.name, toString t.amount,
      "\"" ++ (t.description.getD "") ++ "\""]

/-- A data row as appended to the accumulator (`csv += row + '\n'`). -/
def csvLine (t : Transaction) : String :=
  csvRow t ++ "\n"

def csvHeader : String :=
  "Date,Type,Category,Amount,Description\n"

def csvBody (l : List Transaction) : String :=
  String.join (l.map csvLine)

/-- `TransactionsService.exportToCsv`: `findAll` with the caller's filters
and `limit` replaced by `'10000'`, then the header plus one appended line
per returned row. -/
def exportToCsv (store : List Transaction) (userId : String)
    (f : FilterTransactionDto) : String :=
  let r := findAll store userId { f with limit := some 10000 }
  r.data.foldl (fun csv t => csv ++ csvLine t) csvHeader

/-! ### DashboardService -/

/-- The dashboard date clause: applied only when BOTH bounds are present
(`if (startDate && endDate)`); a lone bound is ignored. -/
def dashDateOk (startDate endDate : Option Nat) (t : Transaction) : Bool :=
  match startDate, endDate with
  | some s, some e => decide (s ≤ t.date) && decide (t.date ≤ e)
  | _, _ => true

/-- The WHERE clause of `getSummary`. -/
def summaryMatches (userId : String) (startDate endDate : Option Nat)
    (t : Transaction) : Bool :=
  t.userId == userId && dashDateOk startDate endDate t

/-- The `{totalIncome, totalExpense, netBalance, transactionCount}` shape. -/
structure SummaryResult where
  totalIncome : Int
  totalExpense : Int
  netBalance : Int
  transactionCount : Nat
deriving DecidableEq

/-- `DashboardService.getSummary`. -/
def getSummary (store : List Transaction) (userId : String)
    (startDate endDate : Option Nat) : SummaryResult :=
  let transactions := store.filter (summaryMatches userId startDate endDate)
  let totalIncome :=
    ((transactions.filter (fun t => t.type == TxType.income)).map (·.amount)).sum
  let totalExpense :=
    ((transactions.filter (fun t => t.type == TxType.expense)).map (·.amount)).sum
  { totalIncome := totalIncome
    totalExpense := totalExpense
    netBalance := totalIncome - totalExpense
    transactionCount := transactions.length }

/-- `'daily' | 'weekly' | 'monthly'`. -/
inductive TrendPeriod where
  | daily
  | weekly
  | monthly
deriving DecidableEq

/-- The `switch (period)` selecting the `TO_CHAR` format string. -/
def dateFormatOf : TrendPeriod → String
  | .daily => "YYYY-MM-DD"
  | .weekly => "YYYY-\"W\"WW"
  | .monthly => "YYYY-MM"

/-- One `{period, type, total}` row of the trends query. -/
structure TrendRow where
  period : String
  type : TxType
  total : Int
deriving DecidableEq

/-- `ORDER BY period ASC` (stable). -/
def sortByPeriodAsc (l : List TrendRow) : List TrendRow :=
  stableSort (fun a b => decide (b.period < a.period)) l

/-- `DashboardService.getTrends`: group the user's transactions by
`(TO_CHAR(date, fmt), type)` with `SUM(amount)`, ordered by period.
`toChar` is the database's `TO_CHAR`, passed in explicitly. -/
def getTrends (store : List Transaction) (userId : String)
    (toChar : String → Nat → String) (period : TrendPeriod) : List TrendRow :=
  let fmt := dateFormatOf period
  let matching := store.filter (fun t => t.userId == userId)
  let keys := (matching.map (fun t => (toChar fmt t.date, t.type))).dedup
  sortByPeriodAsc (keys.map (fun k =>
    { period := k.1
      type := k.2
      total := ((matching.filter
          (fun t => (toChar fmt t.date, t.type) == k)).map (·.amount)).sum }))

/-- The GROUP BY key of the breakdown query
(`category.id, category.name, category.color, category.icon`). -/
structure CatKey where
  id : Nat
  name : String
  color : String
  icon : String
deriving DecidableEq

def catKey (c : Category) : CatKey :=
  { id := c.id, name := c.name, color := c.color, icon := c.icon }

/-- One row of the category-breakdown query. -/
structure BreakdownRow where
  categoryId : Nat
  categoryName : String
  color : String
  icon : String
  total : Int
  count : Nat
deriving DecidableEq

/-- `ORDER BY total DESC` (stable). -/
def sortByTotalDesc (l : List BreakdownRow) : List BreakdownRow :=
  stableSort (fun a b => decide (a.total < b.total)) l

/-- The WHERE clause of `getCategoryBreakdown`: user scope, optional exact
type, and the both-bounds-only date clause. -/
def breakdownMatches (userId : String) (type? : Option TxType)
    (startDate endDate : Option Nat) (t : Transaction) : Bool :=
  t.userId == userId
  && (match type? with | none => true | some ty => t.type == ty)
  && dashDateOk startDate endDate t

/-- The grouped rows of the breakdown query, one per distinct category key
of the matching set, in SQL-grouping (key-occurrence) order. -/
def breakdownRows (matching : List Transaction) : List BreakdownRow :=
  ((matching.map (fun t => catKey t.category)).dedup).map (fun k =>
    let group := matching.filter (fun t => catKey t.category == k)
    { categoryId := k.id
      categoryName := k.name
      color := k.color
      icon := k.icon
      total := (group.map (·.amount)).sum
      count := group.length })

/-- `DashboardService.getCategoryBreakdown`. -/
def getCategoryBreakdown (store : List Transaction) (userId : String)
    (type? : Option TxType) (startDate endDate : Option Nat) :
    List BreakdownRow :=
  sortByTotalDesc
    (breakdownRows (store.filter (breakdownMatches userId type? startDate endDate)))

/-- Number of newline characters; each CSV line is newline-terminated. -/
def lineCount (s : String) : Nat :=
  s.data.count '\n'

/-! ### Concrete sample data (used to instantiate the theorems) -/

def foodCat : Category :=
  { id := 1, userId := "u", name := "Food", color := "#f00", icon := "tag" }

def salaryCat : Category :=
  { id := 2, userId := "u", name := "Salary", color := "#0f0", icon := "tag" }

def txLunch : Transaction :=
  { id := 1, userId := "u", categoryId := 1, category := foodCat, amount := 50,
    type := .expense, description := some "Lunch", date := 10,
    createdAt := 100, updatedAt := 100 }

def txGroceries : Transaction :=
  { id := 2, userId := "u", categoryId := 1, category := foodCat, amount := 30,
    type := .expense, description := none, date := 12,
    createdAt := 101, updatedAt := 101 }

def txPay : Transaction :=
  { id := 3, userId := "u", categoryId := 2, category := salaryCat,
    amount := 1000, type := .income, description := some "pay", date := 11,
    createdAt := 102, updatedAt := 102 }

def txOther : Transaction :=
  { id := 4, userId := "v", categoryId := 1, category := foodCat, amount := 999,
    type := .income, description := none, date := 11,
    createdAt := 103, updatedAt := 103 }

/-- A store with three transactions of user `u` and one of user `v`. -/
def store0 : List Transaction :=
  [txLunch, txGroceries, txPay, txOther]

/-- A transaction of user `u` dated before day 10 (used for the dashboard
date-range claim). -/
def txEarly : Transaction :=
  { id := 9, userId := "u", categoryId := 1, category := foodCat, amount := 7,
    type := .income, description := none, date := 5,
    createdAt := 104, updatedAt := 104 }

/-- Two distinct transactions of user `u` sharing the same date (used for
the listing tie-order claim). -/
def txTieA : Transaction :=
  { id := 5, userId := "u", categoryId := 1, category := foodCat, amount := 20,
    type := .expense, description := some "coffee", date := 11,
    createdAt := 105, updatedAt := 105 }

def txTieB : Transaction :=
  { id := 6, userId := "u", categoryId := 1, category := foodCat, amount := 40,
    type := .expense, description := some "dinner", date := 11,
    createdAt := 106, updatedAt := 106 }

/-- The all-default filter (no criteria, default page and limit). -/
def noFilter : FilterTransactionDto :=
  { type := none, categoryId := none, startDate := none, endDate := none,
    search := none, page := none, limit := none }

/-- An empty update payload. -/
def noUpdate : UpdateTransactionDto :=
  { type := none, amount := none, date := none, categoryId := none,
    description := none }

/-! ### Permutation and order facts about the stable sort -/

theorem stableInsert_perm (keep : α → α → Bool) (a : α) :
    ∀ l : List α, List.Perm (stableInsert keep a l) (a :: l) := by
  intro l
  induction l with
  | nil => simp [stableInsert]
  | cons b l ih =>
    simp only [stableInsert]
    by_cases h : keep a b = true
    · rw [if_pos h]
      exact (ih.cons b).trans (List.Perm.swap a b l)
    · rw [if_neg h]

theorem stableSort_perm (keep : α → α → Bool) :
    ∀ l : List α, List.Perm (stableSort keep l) l := by
  intro l
  induction l with
  | nil => simp [stableSort]
  | cons a l ih =>
    simp only [stableSort]
    exact (stableInsert_perm keep a _).trans (ih.cons a)

theorem stableSort_length (keep : α → α → Bool) (l : List α) :
    (stableSort keep l).length = l.length :=
  (stableSort_perm keep l).length_eq

theorem stableSort_mem (keep : α → α → Bool) (l : List α) (a : α) :
    a ∈ stableSort keep l ↔ a ∈ l :=
  (stableSort_perm keep l).mem_iff

theorem stableSort_map_sum (keep : α → α → Bool) (g : α → Int) (l : List α) :
    ((stableSort keep l).map g).sum = (l.map g).sum :=
  ((stableSort_perm keep l).map g).sum_eq

theorem stableInsert_pairwise_date (a : Transaction) (l : List Transaction)
    (h : l.Pairwise (fun x y => y.date ≤ x.date)) :
    (stableInsert (fun x y => decide (x.date < y.date)) a l).Pairwise
      (fun x y => y.date ≤ x.date) := by
  induction l with
  | nil => simp [stableInsert]
  | cons b l ih =>
    rcases List.pairwise_cons.mp h with ⟨hb, hl⟩
    simp only [stableInsert]
    by_cases hk : a.date < b.date
    · rw [if_pos (decide_eq_true hk)]
      refine List.pairwise_cons.mpr ⟨?_, ih hl⟩
      intro c hc
      rcases List.mem_cons.mp ((stableInsert_perm _ a l).mem_iff.mp hc) with hc | hc
      · exact hc ▸ Nat.le_of_lt hk
      · exact hb c hc
    · rw [if_neg (by simpa using hk)]
      refine List.pairwise_cons.mpr ⟨?_, h⟩
      intro c hc
      have hba : b.date ≤ a.date := Nat.le_of_not_lt hk
      rcases List.mem_cons.mp hc with hc | hc
      · exact hc ▸ hba
      · exact Nat.le_trans (hb c hc) hba

theorem sortByDateDesc_pairwise (l : List Transaction) :
    (sortByDateDesc l).Pairwise (fun x y => y.date ≤ x.date) := by
  induction l with
  | nil => simp [sortByDateDesc, stableSort]
  | cons a l ih =>
    simpa [sortByDateDesc, stableSort] using
      stableInsert_pairwise_date a _ (by simpa [sortByDateDesc] using ih)

/-! ### Filter and sum decompositions -/

theorem filter_of_filter_weaker (p q : α → Bool) (l : List α)
    (h : ∀ x, p x = true → q x = true) :
    (l.filter q).filter p = l.filter p := by
  rw [List.filter_filter]
  refine List.filter_congr ?_
  intro x _
  cases hpx : p x with
  | false => simp
  | true => simp [h x hpx]

theorem sum_map_filter_split (f : α → Int) (p : α → Bool) (l : List α) :
    ((l.filter p).map f).sum + ((l.filter (fun x => !p x)).map f).sum
      = (l.map f).sum := by
  induction l with
  | nil => simp
  | cons a l ih =>
    cases hp : p a <;> simp [List.filter_cons, hp] <;> omega

theorem sum_map_filter_key [DecidableEq κ] (f : α → Int) (k : α → κ) :
    ∀ (ks : List κ) (l : List α), ks.Nodup → (∀ x ∈ l, k x ∈ ks) →
      (ks.map (fun key => ((l.filter (fun x => k x == key)).map f).sum)).sum
        = (l.map f).sum := by
  intro ks
  induction ks with
  | nil =>
    intro l _ hcov
    have hl : l = [] := by
      cases l with
      | nil => rfl
      | cons a t => exact absurd (hcov a (List.mem_cons_self a t)) (List.not_mem_nil _)
    subst hl
    simp
  | cons key ks ih =>
    intro l hnd hcov
    rcases List.nodup_cons.mp hnd with ⟨hkey, hnd'⟩
    simp only [List.map_cons, List.sum_cons]
    have hrest : ∀ key' ∈ ks,
        ((l.filter (fun x => k x == key')).map f).sum
          = (((l.filter (fun x => !(k x == key))).filter
              (fun x => k x == key')).map f).sum := by
      intro key' hk'
      have hw : ∀ x, (k x == key') = true → (!(k x == key)) = true := by
        intro x hx
        have hxk : k x = key' := by simpa using hx
        have hne : ¬ (k x = key) := by
          intro hc
          rw [hxk] at hc
          exact hkey (hc ▸ hk')
        simpa using hne
      rw [filter_of_filter_weaker (fun x => k x == key')
        (fun x => !(k x == key)) l hw]
    have hcov2 : ∀ x ∈ l.filter (fun x => !(k x == key)), k x ∈ ks := by
      intro x hx
      rcases List.mem_filter.mp hx with ⟨hxl, hxne⟩
      rcases List.mem_cons.mp (hcov x hxl) with hc | hc
      · exact absurd (by simpa using hc) (by simpa using hxne)
      · exact hc
    rw [List.map_congr_left hrest, ih _ hnd' hcov2]
    exact sum_map_filter_split f (fun x => k x == key) l

/-! ### String and CSV helpers -/

theorem lineCount_append (a b : String) :
    lineCount (a ++ b) = lineCount a + lineCount b := by
  simp [lineCount, String.data_append]

theorem join_strings_foldl (xs : List String) :
    ∀ init : String, xs.foldl (fun r s => r ++ s) init = init ++ String.join xs := by
  induction xs with
  | nil =>
    intro init
    simp [String.join]
  | cons x xs ih =>
    intro init
    have hx : String.join (x :: xs) = x ++ String.join xs := by
      show (x :: xs).foldl (fun r s => r ++ s) "" = _
      rw [List.foldl_cons, ih ("" ++ x)]
      rfl
    rw [List.foldl_cons, ih (init ++ x), hx, String.append_assoc]

theorem csvBody_nil : csvBody [] = "" := rfl

theorem csvBody_cons (t : Transaction) (l : List Transaction) :
    csvBody (t :: l) = csvLine t ++ csvBody l := by
  show String.join (csvLine t :: l.map csvLine) = _
  show (csvLine t :: l.map csvLine).foldl (fun r s => r ++ s) "" = _
  rw [List.foldl_cons, join_strings_foldl]
  rfl

theorem foldl_csvLine (l : List Transaction) :
    ∀ init : String,
      l.foldl (fun csv t => csv ++ csvLine t) init = init ++ csvBody l := by
  induction l with
  | nil =>
    intro init
    rw [List.foldl_nil, csvBody_nil, String.append_empty]
  | cons t l ih =>
    intro init
    rw [List.foldl_cons, ih, csvBody_cons, String.append_assoc]

theorem lineCount_csvBody (l : List Transaction)
    (h : ∀ t ∈ l, lineCount (csvLine t) = 1) :
    lineCount (csvBody l) = l.length := by
  induction l with
  | nil => rfl
  | cons t l ih =>
    rw [csvBody_cons, lineCount_append, h t (List.mem_cons_self t l),
      ih (fun x hx => h x (List.mem_cons_of_mem t hx)), List.length_cons]
    omega

theorem lineCount_csvHeader : lineCount csvHeader = 1 := by decide

/-! ### Ceiling-division arithmetic -/

theorem ceilDiv_mul_ge (T L : Nat) (hL : 1 ≤ L) : T ≤ ((T + L - 1) / L) * L := by
  have hdm := Nat.div_add_mod (T + L - 1) L
  have hmod : (T + L - 1) % L < L := Nat.mod_lt _ (by omega)
  rw [Nat.mul_comm] at hdm
  obtain ⟨m, hm⟩ : ∃ m, m = ((T + L - 1) / L) * L := ⟨_, rfl⟩
  rw [← hm] at hdm ⊢
  omega

theorem ceilDiv_le_of_le_mul (T L m : Nat) (hL : 1 ≤ L) (h : T ≤ m * L) :
    (T + L - 1) / L ≤ m := by
  have hexp : (m + 1) * L = m * L + L := by ring
  have h2 : T + L - 1 < (m + 1) * L := by
    rw [hexp]
    obtain ⟨x, hx⟩ : ∃ x, x = m * L := ⟨_, rfl⟩
    rw [← hx] at h ⊢
    omega
  have := (Nat.div_lt_iff_lt_mul (show 0 < L by omega)).mpr h2
  omega

/-! ### Small facts about the service predicates -/

/-- Changing only `limit` (or `page`) on a filter does not change which
rows match: the WHERE clause reads none of the pagination fields. -/
theorem matchesFilter_set_limit (f : FilterTransactionDto) (x : Option Nat)
    (u : String) (t : Transaction) :
    matchesFilter { f with limit := x } u t = matchesFilter f u t := rfl

theorem listingOrder_set_limit (store : List Transaction) (u : String)
    (f : FilterTransactionDto) (x : Option Nat) :
    listingOrder store u { f with limit := x } = listingOrder store u f := rfl

theorem matchesFilter_userId (f : FilterTransactionDto) (u : String)
    (t : Transaction) (h : matchesFilter f u t = true) : t.userId = u := by
  have h1 : (t.userId == u) = true := by
    simp only [matchesFilter, Bool.and_eq_true] at h
    exact h.1.1.1.1
  simpa using h1

theorem summaryMatches_userId (u : String) (sd ed : Option Nat)
    (t : Transaction) (h : summaryMatches u sd ed t = true) : (t.userId == u) = true := by
  simp only [summaryMatches, Bool.and_eq_true] at h
  exact h.1

theorem breakdownMatches_userId (u : String) (ty : Option TxType)
    (sd ed : Option Nat) (t : Transaction)
    (h : breakdownMatches u ty sd ed t = true) : (t.userId == u) = true := by
  simp only [breakdownMatches, Bool.and_eq_true] at h
  exact h.1.1

/-- A transaction list splits by the two-valued `type` column. -/
theorem length_split_by_type (l : List Transaction) :
    l.length = (l.filter (fun t => t.type == TxType.income)).length
      + (l.filter (fun t => t.type == TxType.expense)).length := by
  induction l with
  | nil => rfl
  | cons a l ih =>
    cases ha : a.type <;> simp [List.filter_cons, ha, ih] <;> omega

/-! ### Claims -/

/-- C1: Ownership scoping.  Every row returned by `findAll` for user `u`
has `userId = u`, and `getSummary`, `getTrends` and `getCategoryBreakdown`
compute the same result over the full store as over the store restricted to
`u`'s transactions — other users' rows are never returned and never affect
the aggregates. -/
theorem C1_ownership_scoping (store : List Transaction) (u : String)
    (f : FilterTransactionDto) (sd ed : Option Nat) (ty : Option TxType)
    (toChar : String → Nat → String) (p : TrendPeriod) :
    (∀ t ∈ (findAll store u f).data, t.userId = u)
    ∧ getSummary store u sd ed
        = getSummary (store.filter (fun t => t.userId == u)) u sd ed
    ∧ getTrends store u toChar p
        = getTrends (store.filter (fun t => t.userId == u)) u toChar p
    ∧ getCategoryBreakdown store u ty sd ed
        = getCategoryBreakdown (store.filter (fun t => t.userId == u)) u ty sd ed := by
  refine ⟨?_, ?_, ?_, ?_⟩
  · intro t ht
    have h1 : t ∈ listingOrder store u f :=
      List.mem_of_mem_drop (List.mem_of_mem_take ht)
    have h2 : t ∈ store.filter (matchesFilter f u) :=
      (stableSort_mem _ _ t).mp h1
    exact matchesFilter_userId f u t (List.mem_filter.mp h2).2
  · have hs := filter_of_filter_weaker (summaryMatches u sd ed)
      (fun t => t.userId == u) store (summaryMatches_userId u sd ed)
    simp only [getSummary, hs]
  · have hs := filter_of_filter_weaker (fun t => t.userId == u)
      (fun t => t.userId == u) store (fun _ h => h)
    simp only [getTrends, hs]
  · have hs := filter_of_filter_weaker (breakdownMatches u ty sd ed)
      (fun t => t.userId == u) store (breakdownMatches_userId u ty sd ed)
    simp only [getCategoryBreakdown, hs]

/-- C1 witness: the summary of `store0` for user `u` agrees with the
summary over only `u`'s rows. -/
theorem C1_ownership_scoping_witness :
    getSummary store0 "u" none none
      = getSummary (store0.filter (fun t => t.userId == "u")) "u" none none :=
  (C1_ownership_scoping store0 "u" noFilter none none none
    (fun _ d => toString d) TrendPeriod.monthly).2.1

/-- C2: Summary correctness.  `getSummary` returns the income sum, the
expense sum, their difference as `netBalance`, and the count of all
matching rows (income plus expense); an empty matching set yields all
zeroes. -/
theorem C2_summary_totals (store : List Transaction) (u : String)
    (sd ed : Option Nat) :
    (getSummary store u sd ed).totalIncome
      = ((store.filter (fun t => summaryMatches u sd ed t
          && t.type == TxType.income)).map (·.amount)).sum
    ∧ (getSummary store u sd ed).totalExpense
      = ((store.filter (fun t => summaryMatches u sd ed t
          && t.type == TxType.expense)).map (·.amount)).sum
    ∧ (getSummary store u sd ed).netBalance
      = (getSummary store u sd ed).totalIncome
        - (getSummary store u sd ed).totalExpense
    ∧ (getSummary store u sd ed).transactionCount
      = (store.filter (fun t => summaryMatches u sd ed t
          && t.type == TxType.income)).length
        + (store.filter (fun t => summaryMatches u sd ed t
          && t.type == TxType.expense)).length
    ∧ (store.filter (summaryMatches u sd ed) = [] →
        getSummary store u sd ed
          = { totalIncome := 0, totalExpense := 0, netBalance := 0,
              transactionCount := 0 }) := by
  have hcomm : ∀ (q p : Transaction → Bool) (l : List Transaction),
      l.filter (fun a => q a && p a) = l.filter (fun a => p a && q a) :=
    fun q p l => List.filter_congr (fun a _ => Bool.and_comm (q a) (p a))
  refine ⟨?_, ?_, rfl, ?_, ?_⟩
  · simp only [getSummary]
    rw [List.filter_filter, hcomm]
  · simp only [getSummary]
    rw [List.filter_filter, hcomm]
  · simp only [getSummary]
    have h := length_split_by_type (store.filter (summaryMatches u sd ed))
    rw [List.filter_filter, List.filter_filter,
      hcomm (fun t => t.type == TxType.income) (summaryMatches u sd ed) store,
      hcomm (fun t => t.type == TxType.expense) (summaryMatches u sd ed) store] at h
    exact h
  · intro h
    simp [getSummary, h]

/-- C2 witness: on `store0` the summary figures satisfy the identities. -/
theorem C2_summary_totals_witness :
    (getSummary store0 "u" none none).netBalance
      = (getSummary store0 "u" none none).totalIncome
        - (getSummary store0 "u" none none).totalExpense
    ∧ (getSummary store0 "u" none none).transactionCount
      = (store0.filter (fun t => summaryMatches "u" none none t
          && t.type == TxType.income)).length
        + (store0.filter (fun t => summaryMatches "u" none none t
          && t.type == TxType.expense)).length :=
  ⟨(C2_summary_totals store0 "u" none none).2.2.1,
   (C2_summary_totals store0 "u" none none).2.2.2.1⟩

/-- The grouped breakdown rows sum (over `total`) to the plain sum of the
matching amounts: grouping by category partitions the matching set. -/
theorem breakdownRows_sum (matching : List Transaction) :
    ((breakdownRows matching).map (·.total)).sum
      = (matching.map (·.amount)).sum := by
  unfold breakdownRows
  rw [List.map_map]
  have hcov : ∀ t ∈ matching,
      catKey t.category ∈ (matching.map (fun t => catKey t.category)).dedup :=
    fun t ht => List.mem_dedup.mpr (List.mem_map_of_mem _ ht)
  have hkey := sum_map_filter_key (fun t : Transaction => t.amount)
    (fun t => catKey t.category)
    ((matching.map (fun t => catKey t.category)).dedup) matching
    (List.nodup_dedup _) hcov
  refine Eq.trans ?_ hkey
  congr 1

/-- The breakdown WHERE clause with a fixed type equals the summary WHERE
clause conjoined with that type. -/
theorem breakdown_filter_eq (store : List Transaction) (u : String)
    (ty : TxType) (sd ed : Option Nat) :
    store.filter (breakdownMatches u (some ty) sd ed)
      = (store.filter (summaryMatches u sd ed)).filter
          (fun t => t.type == ty) := by
  rw [List.filter_filter]
  refine List.filter_congr ?_
  intro t _
  simp only [breakdownMatches, summaryMatches]
  cases t.userId == u <;> cases t.type == ty <;> cases dashDateOk sd ed t <;> rfl

/-- C3: Breakdown/summary consistency.  With a type filter `ty`, the sum of
the `total` column over all rows of `getCategoryBreakdown` equals the
matching total (`totalIncome` or `totalExpense`) of `getSummary` for the
same user and date range. -/
theorem C3_breakdown_consistency (store : List Transaction) (u : String)
    (sd ed : Option Nat) (ty : TxType) :
    ((getCategoryBreakdown store u (some ty) sd ed).map (·.total)).sum
      = (match ty with
          | TxType.income => (getSummary store u sd ed).totalIncome
          | TxType.expense => (getSummary store u sd ed).totalExpense) := by
  have h1 := stableSort_map_sum (fun a b => decide (a.total < b.total))
    (fun r : BreakdownRow => r.total)
    (breakdownRows (store.filter (breakdownMatches u (some ty) sd ed)))
  simp only [getCategoryBreakdown, sortByTotalDesc]
  rw [h1, breakdownRows_sum, breakdown_filter_eq]
  cases ty <;> simp [getSummary]

/-- C3 witness: on `store0` the expense breakdown totals sum to
`totalExpense`. -/
theorem C3_breakdown_consistency_witness :
    ((getCategoryBreakdown store0 "u" (some TxType.expense) none none).map
        (·.total)).sum
      = (getSummary store0 "u" none none).totalExpense :=
  C3_breakdown_consistency store0 "u" none none TxType.expense

/-- C4: Pagination metadata.  `total` is the count of all matching rows
(independent of the window), `totalPages` is the ceiling of
`total / limit` (characterised as the least `m` with `total ≤ m * limit`,
so `total = 0` gives `totalPages = 0`), and any `page` beyond `totalPages`
yields an empty `data` array with the same `total`, not an error. -/
theorem C4_pagination_metadata (store : List Transaction) (u : String)
    (f : FilterTransactionDto) (page limit : Nat)
    (hp : f.page = some page) (hl : f.limit = some limit)
    (hpage : 1 ≤ page) (hlimit : 1 ≤ limit) :
    (findAll store u f).total = (store.filter (matchesFilter f u)).length
    ∧ (findAll store u f).total ≤ (findAll store u f).totalPages * limit
    ∧ (∀ m : Nat, (findAll store u f).total ≤ m * limit →
        (findAll store u f).totalPages ≤ m)
    ∧ ((findAll store u f).total = 0 → (findAll store u f).totalPages = 0)
    ∧ ((findAll store u f).totalPages < page →
        (findAll store u f).data = []
          ∧ (findAll store u f).total
              = (store.filter (matchesFilter f u)).length) := by
  have hfa : findAll store u f
      = { data := ((listingOrder store u f).drop ((page - 1) * limit)).take limit
          total := (store.filter (matchesFilter f u)).length
          page := page
          limit := limit
          totalPages :=
            ((store.filter (matchesFilter f u)).length + limit - 1) / limit } := by
    simp [findAll, hp, hl]
  rw [hfa]
  refine ⟨rfl, ?_, ?_, ?_, ?_⟩
  · exact ceilDiv_mul_ge _ limit hlimit
  · exact fun m hm => ceilDiv_le_of_le_mul _ limit m hlimit hm
  · intro h0
    have h0' : (store.filter (matchesFilter f u)).length = 0 := h0
    show ((store.filter (matchesFilter f u)).length + limit - 1) / limit = 0
    rw [h0']
    exact Nat.div_eq_of_lt (by omega)
  · intro hlt
    refine ⟨?_, rfl⟩
    show ((listingOrder store u f).drop ((page - 1) * limit)).take limit = []
    have hlen : (listingOrder store u f).length
        = (store.filter (matchesFilter f u)).length :=
      stableSort_length _ _
    have hTP : ((store.filter (matchesFilter f u)).length + limit - 1) / limit
        ≤ page - 1 := by
      have : ((store.filter (matchesFilter f u)).length + limit - 1) / limit
          < page := hlt
      omega
    have hskip : (store.filter (matchesFilter f u)).length ≤ (page - 1) * limit := by
      calc (store.filter (matchesFilter f u)).length
          ≤ (((store.filter (matchesFilter f u)).length + limit - 1) / limit)
              * limit := ceilDiv_mul_ge _ limit hlimit
        _ ≤ (page - 1) * limit := Nat.mul_le_mul_right limit hTP
    rw [List.drop_eq_nil_of_le (by omega), List.take_nil]

/-- C4 witness: `store0` for user `u` with `page = 4`, `limit = 1` — the
window is past the last page, so `data` is empty and `total` is still 3. -/
theorem C4_pagination_metadata_witness :
    (findAll store0 "u"
        { noFilter with page := some 4, limit := some 1 }).totalPages < 4
    ∧ (findAll store0 "u"
        { noFilter with page := some 4, limit := some 1 }).data = [] := by
  have h := C4_pagination_metadata store0 "u"
    { noFilter with page := some 4, limit := some 1 } 4 1 rfl rfl
    (by decide) (by decide)
  have htp : (findAll store0 "u"
      { noFilter with page := some 4, limit := some 1 }).totalPages < 4 := by
    decide
  exact ⟨htp, (h.2.2.2.2 htp).1⟩

/-- The merged id+owner lookup misses exactly when no stored transaction
has both that id and that owner. -/
theorem findOneTx_eq_none (store : List Transaction) (id : Nat) (u : String) :
    findOneTx store id u = none ↔ ¬ ∃ t ∈ store, t.id = id ∧ t.userId = u := by
  unfold findOneTx
  rw [List.find?_eq_none]
  constructor
  · rintro h ⟨t, ht, hid, hu⟩
    exact (h t ht) (by simp [hid, hu])
  · intro h t ht hp
    exact h ⟨t, ht, by simpa using hp⟩

/-- C5: Not-found semantics.  `findOne`, `update` and `remove` fail with
the not-found error exactly when no stored transaction has both the given
id and the given owner (another user's transaction is indistinguishable
from a missing one); on failure the store is untouched, and a second
`remove` of a removed id fails the same way. -/
theorem C5_not_found_semantics (store : List Transaction) (id : Nat)
    (u : String) (dto : UpdateTransactionDto) (now : Nat) :
    (findOne store id u = Except.error "Transaction not found"
      ↔ ¬ ∃ t ∈ store, t.id = id ∧ t.userId = u)
    ∧ (update store id u dto now = Except.error "Transaction not found"
      ↔ ¬ ∃ t ∈ store, t.id = id ∧ t.userId = u)
    ∧ (remove store id u = Except.error "Transaction not found"
      ↔ ¬ ∃ t ∈ store, t.id = id ∧ t.userId = u)
    ∧ ((¬ ∃ t ∈ store, t.id = id ∧ t.userId = u) →
        storeAfterUpdate store id u dto now = store
          ∧ storeAfterRemove store id u = store)
    ∧ (∀ s', remove store id u = Except.ok s' →
        remove s' id u = Except.error "Transaction not found") := by
  have hexists : ∀ t, findOneTx store id u = some t →
      ∃ t' ∈ store, t'.id = id ∧ t'.userId = u := by
    intro t h
    have hmem : t ∈ store := List.mem_of_find?_eq_some h
    have hp := List.find?_some h
    exact ⟨t, hmem, by simpa using hp⟩
  refine ⟨?_, ?_, ?_, ?_, ?_⟩
  · cases h : findOneTx store id u with
    | none =>
      simp only [findOne, h]
      simpa using (findOneTx_eq_none store id u).mp h
    | some t =>
      simp only [findOne, h]
      simp [hexists t h]
  · cases h : findOneTx store id u with
    | none =>
      simp only [update, h]
      simpa using (findOneTx_eq_none store id u).mp h
    | some t =>
      simp only [update, h]
      simp [hexists t h]
  · cases h : findOneTx store id u with
    | none =>
      simp only [remove, h]
      simpa using (findOneTx_eq_none store id u).mp h
    | some t =>
      simp only [remove, h]
      simp [hexists t h]
  · intro hn
    have h : findOneTx store id u = none := (findOneTx_eq_none store id u).mpr hn
    constructor
    · simp [storeAfterUpdate, update, h]
    · simp [storeAfterRemove, remove, h]
  · intro s' hok
    cases h : findOneTx store id u with
    | none => simp [remove, h] at hok
    | some t =>
      have hpt : t.id = id ∧ t.userId = u := by simpa using List.find?_some h
      simp only [remove, h, Except.ok.injEq] at hok
      have hnone : findOneTx s' id u = none := by
        unfold findOneTx
        rw [List.find?_eq_none]
        intro x hx
        rw [← hok] at hx
        rcases List.mem_filter.mp hx with ⟨hxs, hxne⟩
        have hne : ¬ x.id = t.id := by simpa using hxne
        intro hcontra
        have hx2 : x.id = id ∧ x.userId = u := by simpa using hcontra
        exact hne (hx2.1.trans hpt.1.symm)
      simp [remove, hnone]

/-- C5 witness: id 4 belongs to user `v`, so for user `u` it is
indistinguishable from a missing id. -/
theorem C5_not_found_semantics_witness :
    findOne store0 4 "u" = Except.error "Transaction not found"
      ↔ ¬ ∃ t ∈ store0, t.id = 4 ∧ t.userId = "u" :=
  (C5_not_found_semantics store0 4 "u" noUpdate 0).1

/-- C6: Partial-update frame property.  When the id+owner lookup succeeds,
`update` returns a row in which exactly the DTO-present fields carry the
supplied values, every absent field (and `id`, `userId`, `createdAt`, the
loaded `category` relation) is unchanged, and `updatedAt` is refreshed to
the save time. -/
theorem C6_update_frame (store : List Transaction) (id : Nat) (u : String)
    (dto : UpdateTransactionDto) (now : Nat) (t : Transaction)
    (h : findOneTx store id u = some t) :
    ∃ t' s', update store id u dto now = Except.ok (t', s')
    ∧ (t'.id = t.id ∧ t'.userId = t.userId ∧ t'.createdAt = t.createdAt
        ∧ t'.category = t.category ∧ t'.updatedAt = now)
    ∧ (∀ v, dto.type = some v → t'.type = v)
    ∧ (dto.type = none → t'.type = t.type)
    ∧ (∀ v, dto.amount = some v → t'.amount = v)
    ∧ (dto.amount = none → t'.amount = t.amount)
    ∧ (∀ v, dto.date = some v → t'.date = v)
    ∧ (dto.date = none → t'.date = t.date)
    ∧ (∀ v, dto.categoryId = some v → t'.categoryId = v)
    ∧ (dto.categoryId = none → t'.categoryId = t.categoryId)
    ∧ (∀ v, dto.description = some v → t'.description = some v)
    ∧ (dto.description = none → t'.description = t.description) := by
  refine ⟨{ applyUpdate t dto with updatedAt := now },
    store.map (fun x => if x.id == t.id
      then { applyUpdate t dto with updatedAt := now } else x),
    ?_, ⟨rfl, rfl, rfl, rfl, rfl⟩, ?_, ?_, ?_, ?_, ?_, ?_, ?_, ?_, ?_, ?_⟩
  · simp [update, h]
  · intro v hv
    simp [applyUpdate, hv]
  · intro hv
    simp [applyUpdate, hv]
  · intro v hv
    simp [applyUpdate, hv]
  · intro hv
    simp [applyUpdate, hv]
  · intro v hv
    simp [applyUpdate, hv]
  · intro hv
    simp [applyUpdate, hv]
  · intro v hv
    simp [applyUpdate, hv]
  · intro hv
    simp [applyUpdate, hv]
  · intro v hv
    simp [applyUpdate, hv]
  · intro hv
    simp [applyUpdate, hv]

/-- C6 witness: updating only `amount` of transaction 1 keeps its type and
refreshes `updatedAt`. -/
theorem C6_update_frame_witness :
    ∃ t' s',
      update store0 1 "u" { noUpdate with amount := some 75 } 200
        = Except.ok (t', s')
      ∧ t'.amount = 75 ∧ t'.updatedAt = 200 ∧ t'.type = txLunch.type := by
  obtain ⟨t', s', hok, hframe, _, hty_none, ham_some, _, _, _, _, _, _, _⟩ :=
    C6_update_frame store0 1 "u" { noUpdate with amount := some 75 } 200
      txLunch (by decide)
  exact ⟨t', s', hok, ham_some 75 rfl, hframe.2.2.2.2, hty_none rfl⟩

/-- C7 counterexample: user `u` owns a single income transaction of amount
7 dated day 5.  With the lone bound `startDate = 10` the claim demands the
transaction be excluded (all aggregates zero over the empty range), but
`getSummary` counts it and sums its amount, and `getCategoryBreakdown`
counts it too: a lone date bound is ignored by the dashboard queries. -/
theorem C7_lone_bound_counterexample :
    txEarly.userId = "u" ∧ txEarly.date < 10
    ∧ (getSummary [txEarly] "u" (some 10) none).transactionCount = 1
    ∧ (getSummary [txEarly] "u" (some 10) none).totalIncome = 7
    ∧ ¬ (getSummary [txEarly] "u" (some 10) none).totalIncome = 0
    ∧ ((getCategoryBreakdown [txEarly] "u" none (some 10) none).map
        (·.count)).sum = 1 := by
  decide

/-- C7 (amended): `getSummary` and `getCategoryBreakdown` restrict to the
inclusive closed range only when both `startDate` and `endDate` are
supplied; when exactly one bound is supplied it is ignored, and the
aggregation runs over all of the user's transactions, exactly as with no
bounds at all. -/
theorem C7_dash_date_range (store : List Transaction) (u : String)
    (sd ed : Nat) (ty : Option TxType) :
    getSummary store u (some sd) none = getSummary store u none none
    ∧ getSummary store u none (some ed) = getSummary store u none none
    ∧ getCategoryBreakdown store u ty (some sd) none
        = getCategoryBreakdown store u ty none none
    ∧ getCategoryBreakdown store u ty none (some ed)
        = getCategoryBreakdown store u ty none none
    ∧ store.filter (summaryMatches u (some sd) (some ed))
        = store.filter (fun t => t.userId == u
            && (decide (sd ≤ t.date) && decide (t.date ≤ ed))) :=
  ⟨rfl, rfl, rfl, rfl, rfl⟩

/-- C7 amended-claim witness: with the lone bound `startDate = 10` the
summary over `txEarly` equals the unbounded summary. -/
theorem C7_dash_date_range_witness :
    getSummary [txEarly] "u" (some 10) none = getSummary [txEarly] "u" none none :=
  (C7_dash_date_range [txEarly] "u" 10 0 none).1

/-- C8 counterexample: two distinct transactions of user `u` share date
11 and both match the default listing filter.  The query's only ordering
clause, `ORDER BY transaction.date DESC`, is satisfied both by
`[txTieA, txTieB]` and by `[txTieB, txTieA]`, which differ — so the
program does not determine the relative order of equal-date rows, and the
claimed insertion-order/id tie-breaking is not a property of the code. -/
theorem C8_tie_order_counterexample :
    txTieA.date = txTieB.date
    ∧ txTieA ≠ txTieB
    ∧ matchesFilter noFilter "u" txTieA = true
    ∧ matchesFilter noFilter "u" txTieB = true
    ∧ isDateDescOrdering [txTieA, txTieB] [txTieA, txTieB]
    ∧ isDateDescOrdering [txTieA, txTieB] [txTieB, txTieA]
    ∧ [txTieA, txTieB] ≠ [txTieB, txTieA] := by
  refine ⟨rfl, by decide, rfl, rfl, ⟨List.Perm.refl _, ?_⟩,
    ⟨List.Perm.swap txTieA txTieB [], ?_⟩, by decide⟩
  · exact List.pairwise_cons.mpr ⟨by decide, List.pairwise_singleton _ _⟩
  · exact List.pairwise_cons.mpr ⟨by decide, List.pairwise_singleton _ _⟩

/-- C8 (amended): the returned page is sorted by date descending and is
the pagination window cut from the full ordered listing, which is itself a
valid `ORDER BY date DESC` result over the matching rows (a date-sorted
permutation).  The query has no secondary sort key, so the relative order
of equal-date rows is engine-dependent, not fixed by insertion order or
id. -/
theorem C8_listing_order_desc (store : List Transaction) (u : String)
    (f : FilterTransactionDto) :
    (findAll store u f).data.Pairwise (fun a b => b.date ≤ a.date)
    ∧ (findAll store u f).data
        = ((listingOrder store u f).drop
            ((f.page.getD 1 - 1) * (f.limit.getD 20))).take (f.limit.getD 20)
    ∧ isDateDescOrdering (store.filter (matchesFilter f u))
        (listingOrder store u f) := by
  refine ⟨?_, rfl, stableSort_perm _ _, sortByDateDesc_pairwise _⟩
  have hsorted := sortByDateDesc_pairwise (store.filter (matchesFilter f u))
  have hsub : List.Sublist (findAll store u f).data (listingOrder store u f) := by
    have h1 := List.take_sublist (f.limit.getD 20)
      ((listingOrder store u f).drop
        ((f.page.getD 1 - 1) * (f.limit.getD 20)))
    have h2 := List.drop_sublist ((f.page.getD 1 - 1) * (f.limit.getD 20))
      (listingOrder store u f)
    exact h1.trans h2
  exact hsorted.sublist hsub

/-- C8 amended-claim witness: the default listing page over `store0` is
the first-20-window of the ordered listing. -/
theorem C8_listing_order_desc_witness :
    (findAll store0 "u" noFilter).data
      = ((listingOrder store0 "u" noFilter).drop
          ((noFilter.page.getD 1 - 1) * (noFilter.limit.getD 20))).take
          (noFilter.limit.getD 20) :=
  (C8_listing_order_desc store0 "u" noFilter).2.1

/-- The export string is always the header followed by the body of the
10000-limit pagination window. -/
theorem exportToCsv_eq (store : List Transaction) (u : String)
    (f : FilterTransactionDto) :
    exportToCsv store u f
      = csvHeader ++ csvBody (((listingOrder store u f).drop
          ((f.page.getD 1 - 1) * 10000)).take 10000) := by
  unfold exportToCsv
  rw [foldl_csvLine]
  rfl

/-- C9: CSV export shape.  With the default page, the export is exactly the
header line `Date,Type,Category,Amount,Description` followed by one
appended line per matching transaction (in listing order, capped at 10000
rows), each line joining date, type, category name, amount, and the
quoted description (empty when null); when no rendered line embeds a
newline, the line count is `1 + rows` (so 3 rows give 4 lines). -/
theorem C9_csv_export_shape (store : List Transaction) (u : String)
    (f : FilterTransactionDto) (hpage : f.page = none) :
    exportToCsv store u f
      = csvHeader ++ csvBody ((listingOrder store u f).take 10000)
    ∧ (findAll store u { f with limit := some 10000 }).data
        = (listingOrder store u f).take 10000
    ∧ csvHeader = "Date,Type,Category,Amount,Description\n"
    ∧ (∀ t : Transaction, csvRow t = String.intercalate ","
        [toString t.date, t.type.str, t.category.name, toString t.amount,
          "\"" ++ (t.description.getD "") ++ "\""])
    ∧ ((∀ t ∈ (listingOrder store u f).take 10000, lineCount (csvLine t) = 1) →
        lineCount (exportToCsv store u f)
          = 1 + ((listingOrder store u f).take 10000).length) := by
  have hwin : (listingOrder store u f).drop ((f.page.getD 1 - 1) * 10000)
      = listingOrder store u f := by
    rw [hpage]
    simp
  refine ⟨?_, ?_, rfl, fun t => rfl, ?_⟩
  · rw [exportToCsv_eq, hwin]
  · show ((listingOrder store u f).drop ((f.page.getD 1 - 1) * 10000)).take 10000
        = (listingOrder store u f).take 10000
    rw [hwin]
  · intro hall
    rw [exportToCsv_eq, hwin, lineCount_append, lineCount_csvHeader,
      lineCount_csvBody _ hall]

/-- C9 witness: the default-filter export over `store0`. -/
theorem C9_csv_export_shape_witness :
    exportToCsv store0 "u" noFilter
      = csvHeader ++ csvBody ((listingOrder store0 "u" noFilter).take 10000) :=
  (C9_csv_export_shape store0 "u" noFilter rfl).1

/-- C10: Export forwards caller pagination.  `exportToCsv` always forces
`limit` to 10000 but leaves a caller-supplied `page = p` in effect, so the
export body is the rows in the window `[(p-1)*10000, p*10000)` of the
ordered listing; with `page = 2` and at most 10000 matching rows the
output is the header alone. -/
theorem C10_export_pagination (store : List Transaction) (u : String)
    (f : FilterTransactionDto) (p : Nat) (hpage : f.page = some p) :
    (findAll store u { f with limit := some 10000 }).limit = 10000
    ∧ (findAll store u { f with limit := some 10000 }).page = p
    ∧ exportToCsv store u f
        = csvHeader ++ csvBody (((listingOrder store u f).drop
            ((p - 1) * 10000)).take 10000)
    ∧ (p = 2 → (store.filter (matchesFilter f u)).length ≤ 10000 →
        exportToCsv store u f = csvHeader) := by
  refine ⟨rfl, ?_, ?_, ?_⟩
  · show f.page.getD 1 = p
    rw [hpage]
    rfl
  · rw [exportToCsv_eq, hpage]
    rfl
  · intro hp2 hlen
    subst hp2
    rw [exportToCsv_eq, hpage]
    have hdrop : (listingOrder store u f).drop
        (((some 2 : Option Nat).getD 1 - 1) * 10000) = [] := by
      apply List.drop_eq_nil_of_le
      have hlo : (listingOrder store u f).length
          = (store.filter (matchesFilter f u)).length :=
        stableSort_length _ _
      rw [hlo]
      simp only [Option.getD_some]
      omega
    rw [hdrop]
    rw [show ([] : List Transaction).take 10000 = [] from List.take_nil,
      csvBody_nil, String.append_empty]

/-- C10 witness: exporting `store0` with `page = 2` yields the bare
header. -/
theorem C10_export_pagination_witness :
    exportToCsv store0 "u" { noFilter with page := some 2 } = csvHeader :=
  ((C10_export_pagination store0 "u" { noFilter with page := some 2 } 2
    rfl).2.2.2) rfl (by decide)

end Expense
